import Mathlib

/-!
Verification of `generate-icons.py`: a build-time pipeline that crops a
source image to a square, renders 10 macOS icon bitmaps, writes a
`Contents.json` manifest, packages the bitmaps into an `.icns` container
via the external `iconutil` tool, and copies the container to two
destinations.

The embedding is shallow: PIL images become a symbolic `Img` record (pixel
content is a term of `PixExpr`, with a rational-valued denotation
`evalPix` giving the alpha-compositing semantics of the PIL calls the
script uses); the filesystem becomes an association list from path
strings to entries; the external tool and environment faults become an
explicit `Env` record; Python exceptions become an `Except`-style error
type threaded through the translation.
-/

set_option maxRecDepth 8000

namespace OfflineCinema

/-! ## Image model (the PIL values the script manipulates) -/

/-- PIL color modes used by the script: `"RGB"`, `"RGBA"`, or any other
mode string (`"L"`, `"P"`, ...). -/
inductive Mode where
  | RGB
  | RGBA
  | other (name : String)
deriving DecidableEq, Repr

/-- PIL resampling filters; the script only ever uses
`Image.Resampling.LANCZOS` (generate-icons.py line 36). -/
inductive Filter where
  | lanczos
  | nearest
  | bilinear
  | bicubic
deriving DecidableEq, Repr

/-- Symbolic pixel content of an image: the source file's pixels, or the
image operations of the script applied to them.  Keeping content symbolic
makes every image operation of the script a computable function while the
numeric behavior of the library resampler stays abstract (interpreted by
an environment in `evalPix`). -/
inductive PixExpr where
  | src (id : Nat)
  | cropAt (p : PixExpr) (left top right bottom : Nat)
  | resample (f : Filter) (p : PixExpr) (w h : Nat)
  | compositeOverBlack (p : PixExpr)
  | convertTo (m : Mode) (p : PixExpr)
deriving DecidableEq, Repr

/-- An in-memory PIL image: dimensions, color mode, symbolic pixels. -/
structure Img where
  width : Nat
  height : Nat
  mode : Mode
  px : PixExpr
deriving DecidableEq, Repr

/-- `img.size` in PIL is the pair (width, height). -/
def Img.size (img : Img) : Nat × Nat := (img.width, img.height)

/-- PIL `Image.convert(m)`: the result has mode `m`; converting an image
already in mode `m` returns an identical copy. -/
def Img.convert (img : Img) (m : Mode) : Img :=
  if img.mode = m then img
  else { img with mode := m, px := .convertTo m img.px }

/-- PIL `Image.resize((w, h), f)`: the result has exactly the requested
dimensions and keeps the mode of the input. -/
def Img.resize (img : Img) (w h : Nat) (f : Filter) : Img :=
  { width := w, height := h, mode := img.mode, px := .resample f img.px w h }

/-- PIL `Image.crop((left, top, right, bottom))`: result is
`(right-left) × (bottom-top)`, same mode. -/
def Img.cropBox (img : Img) (left top right bottom : Nat) : Img :=
  { width := right - left, height := bottom - top, mode := img.mode,
    px := .cropAt img.px left top right bottom }

/-- One RGBA pixel with rational channel values (1 = full intensity /
fully opaque). -/
structure Quad where
  r : ℚ
  g : ℚ
  b : ℚ
  a : ℚ
deriving DecidableEq, Repr

/-- Denotation of symbolic pixel content.  `renv` interprets the leaves
whose numeric content the script delegates to the library (the decoded
source file and the Lanczos resampler).  `compositeOverBlack` is PIL's
`background.paste(resized, (0, 0), resized)` onto an opaque black
`Image.new("RGB", ..., (0, 0, 0))`: each channel blends as
`out = src * a + 0 * (1 - a)` and the result is opaque.  `convertTo`
drops / adds an alpha channel, yielding opaque pixels. -/
def evalPix (renv : PixExpr → Nat → Nat → Quad) : PixExpr → Nat → Nat → Quad
  | .src i, x, y => renv (.src i) x y
  | .cropAt p l t _ _, x, y => evalPix renv p (l + x) (t + y)
  | .resample f p w h, x, y => renv (.resample f p w h) x y
  | .compositeOverBlack p, x, y =>
      let q := evalPix renv p x y
      ⟨q.r * q.a + 0 * (1 - q.a), q.g * q.a + 0 * (1 - q.a),
       q.b * q.a + 0 * (1 - q.a), 1⟩
  | .convertTo _ p, x, y =>
      let q := evalPix renv p x y
      ⟨q.r, q.g, q.b, 1⟩

/-! ## The icon catalog (generate-icons.py lines 14-25) -/

/-- One entry of the `ICON_SIZES` catalog: `(size, scale, filename)`. -/
structure IconSpec where
  size : Nat
  scale : Nat
  filename : String
deriving DecidableEq, Repr

/-- `ICON_SIZES`, generate-icons.py lines 14-25. -/
def ICON_SIZES : List IconSpec :=
  [⟨16, 1, "icon_16x16.png"⟩,
   ⟨16, 2, "icon_16x16@2x.png"⟩,
   ⟨32, 1, "icon_32x32.png"⟩,
   ⟨32, 2, "icon_32x32@2x.png"⟩,
   ⟨128, 1, "icon_128x128.png"⟩,
   ⟨128, 2, "icon_128x128@2x.png"⟩,
   ⟨256, 1, "icon_256x256.png"⟩,
   ⟨256, 2, "icon_256x256@2x.png"⟩,
   ⟨512, 1, "icon_512x512.png"⟩,
   ⟨512, 2, "icon_512x512@2x.png"⟩]

/-! ## crop_to_square (generate-icons.py lines 120-133) -/

/-- `crop_to_square`, generate-icons.py lines 120-133.  Python `//` on
the nonnegative operands here is `Nat` division. -/
def crop_to_square (img : Img) : Img :=
  if img.width = img.height then img
  else
    let size := min img.width img.height
    let left := (img.width - size) / 2
    let top := (img.height - size) / 2
    let right := left + size
    let bottom := top + size
    img.cropBox left top right bottom

/-! ## create_icon (generate-icons.py lines 28-49): the rendered bitmap -/

/-- The bitmap computed by `create_icon` before `resized.save(...)`,
generate-icons.py lines 33-46: resize to `size * scale` with LANCZOS;
if the result is RGBA, paste it over an opaque black RGB background
(alpha-composite); else if not RGB, convert to RGB. -/
def renderIcon (source_img : Img) (size scale : Nat) : Img :=
  let actual_size := size * scale
  let resized := source_img.resize actual_size actual_size .lanczos
  if resized.mode = .RGBA then
    { width := actual_size, height := actual_size, mode := .RGB,
      px := .compositeOverBlack resized.px }
  else if resized.mode ≠ .RGB then
    resized.convert .RGB
  else
    resized

/-! ## The manifest (generate-icons.py lines 96-117) -/

/-- One element of the `"images"` list of `Contents.json`. -/
structure ManifestEntry where
  filename : String
  idiom : String
  scale : String
  size : String
deriving DecidableEq, Repr

/-- The `"info"` object of `Contents.json`. -/
structure ManifestInfo where
  author : String
  version : Nat
deriving DecidableEq, Repr

/-- The JSON document written to `Contents.json`. -/
structure Manifest where
  images : List ManifestEntry
  info : ManifestInfo
deriving DecidableEq, Repr

/-- The literal `contents` record of `update_contents_json`,
generate-icons.py lines 98-112. -/
def contentsRecord : Manifest :=
  { images :=
      [⟨"icon_16x16.png", "mac", "1x", "16x16"⟩,
       ⟨"icon_16x16@2x.png", "mac", "2x", "16x16"⟩,
       ⟨"icon_32x32.png", "mac", "1x", "32x32"⟩,
       ⟨"icon_32x32@2x.png", "mac", "2x", "32x32"⟩,
       ⟨"icon_128x128.png", "mac", "1x", "128x128"⟩,
       ⟨"icon_128x128@2x.png", "mac", "2x", "128x128"⟩,
       ⟨"icon_256x256.png", "mac", "1x", "256x256"⟩,
       ⟨"icon_256x256@2x.png", "mac", "2x", "256x256"⟩,
       ⟨"icon_512x512.png", "mac", "1x", "512x512"⟩,
       ⟨"icon_512x512@2x.png", "mac", "2x", "512x512"⟩],
    info := ⟨"xcode", 1⟩ }

/-! ## Filesystem model -/

/-- Serialized file contents: a PNG encoding of a bitmap (the encoder is
deterministic, so equal images give byte-equal files), the JSON-serialized
manifest, an `.icns` container produced by `iconutil` (identified by the
abstract content the tool produced), or opaque bytes. -/
inductive FData where
  | png (img : Img)
  | jsonManifest (c : Manifest)
  | icns (content : Nat)
  | raw (s : String)
deriving DecidableEq, Repr

/-- A filesystem entry: a regular file with contents, or a directory. -/
inductive Entry where
  | file (d : FData)
  | dir
deriving DecidableEq, Repr

/-- The filesystem: an association list from absolute path strings to
entries; the head-most binding of a path is its current entry. -/
abbrev Fs := List (String × Entry)

/-- Path lookup (`os.path.exists` is `(fsGet fs p).isSome`). -/
def fsGet : Fs → String → Option Entry
  | [], _ => none
  | (q, e) :: rest, p => if p = q then some e else fsGet rest p

/-- Create or overwrite the entry at a path. -/
def fsSet (fs : Fs) (p : String) (e : Entry) : Fs := (p, e) :: fs

/-- `os.path.exists`. -/
def fsExists (fs : Fs) (p : String) : Bool := (fsGet fs p).isSome

/-- True when `q` lies strictly inside the directory `dirPath` (its path
extends `dirPath ++ "/"`). -/
def isUnder (dirPath q : String) : Bool :=
  (dirPath ++ "/").data.isPrefixOf q.data

/-- `shutil.rmtree p`: remove the directory entry at `p` and every entry
beneath it. -/
def rmtree (fs : Fs) (p : String) : Fs :=
  fs.filter (fun e => !(e.1 == p || isUnder p e.1))

/-- `os.path.join` for the two-component joins the script performs. -/
def pjoin (a b : String) : String := a ++ "/" ++ b

/-- Python exceptions the modelled calls can raise. -/
inductive PyErr where
  | fileNotFound (path : String)
  | osError (msg : String)
deriving DecidableEq, Repr

/-- `shutil.copy2 src dst`: copies file contents; raises
`FileNotFoundError` when the source is absent and `IsADirectoryError`
(here `osError`) when it is a directory. -/
def copy2 (fs : Fs) (src dst : String) : Except PyErr Fs :=
  match fsGet fs src with
  | some (.file d) => .ok (fsSet fs dst (.file d))
  | some .dir => .error (.osError "is a directory")
  | none => .error (.fileNotFound src)

/-! ## String.replace (executable model)

`generate_icns` computes the staging path with
`output_path.replace(".icns", ".iconset")` (line 55).  Core's
`String.replace` does not reduce in the kernel, so the same
leftmost, non-overlapping, replace-all semantics is given a
fuel-structural definition here. -/

/-- Replace-all on character lists; `fuel` bounds the scan length
(callers pass the list's length, which suffices: every step consumes at
least one character). -/
def replaceFuel (pat rep : List Char) : Nat → List Char → List Char
  | _, [] => []
  | 0, s => s
  | fuel + 1, c :: rest =>
      if pat.isPrefixOf (c :: rest) then
        rep ++ replaceFuel pat rep fuel ((c :: rest).drop pat.length)
      else
        c :: replaceFuel pat rep fuel rest

/-- `s.replace pat rep` for a nonempty pattern (Python's `str.replace`:
leftmost-first, non-overlapping, all occurrences). -/
def strReplace (s pat rep : String) : String :=
  if pat.data = [] then s
  else ⟨replaceFuel pat.data rep.data s.data.length s.data⟩

/-! ## The environment: external tool and filesystem faults -/

/-- Outcome of `subprocess.run(["iconutil", ...])`: the executable may be
absent (`FileNotFoundError`), or it runs and yields an exit code, a
captured stderr, and — when it succeeds — the container bytes it wrote
to the output path. -/
inductive IconutilOutcome where
  | unavailable
  | ran (exitCode : Nat) (stderr : String) (container : Nat)
deriving DecidableEq, Repr

/-- The ambient conditions of one run: the behavior of the packaging tool
and whether the filesystem faults (raises an `OSError`) during the
staging copies. -/
structure Env where
  iconutil : IconutilOutcome
  stagingFault : Bool
deriving DecidableEq, Repr

/-! ## generate_icns (generate-icons.py lines 52-93) -/

/-- `icon_mapping`, generate-icons.py lines 58-69. -/
def icon_mapping : List (String × String) :=
  [("icon_16x16.png", "icon_16x16.png"),
   ("icon_16x16@2x.png", "icon_16x16@2x.png"),
   ("icon_32x32.png", "icon_32x32.png"),
   ("icon_32x32@2x.png", "icon_32x32@2x.png"),
   ("icon_128x128.png", "icon_128x128.png"),
   ("icon_128x128@2x.png", "icon_128x128@2x.png"),
   ("icon_256x256.png", "icon_256x256.png"),
   ("icon_256x256@2x.png", "icon_256x256@2x.png"),
   ("icon_512x512.png", "icon_512x512.png"),
   ("icon_512x512@2x.png", "icon_512x512@2x.png")]

/-- The staging loop, generate-icons.py lines 71-75: copy each mapped
bitmap that exists; a filesystem fault (or a directory at a source path)
raises.  Returns the filesystem as modified so far plus the raised
exception, if any. -/
def stageIcons (fault : Bool) (input_dir iconset_path : String) :
    Fs → List (String × String) → Fs × Option PyErr
  | fs, [] => (fs, none)
  | fs, (srcName, dstName) :: rest =>
      let s := pjoin input_dir srcName
      let d := pjoin iconset_path dstName
      if fsExists fs s then
        if fault then (fs, some (.osError "copy failed"))
        else
          match copy2 fs s d with
          | .ok fs' => stageIcons fault input_dir iconset_path fs' rest
          | .error e => (fs, some e)
      else
        stageIcons fault input_dir iconset_path fs rest

/-- `generate_icns`, generate-icons.py lines 52-93.  Returns the
filesystem, the boolean result, and the printed diagnostics.  The
`try`/`except` of lines 54-93 converts any exception into `False`; on
exit code 0 the tool has written the container to `output_path` and the
staging directory is removed (line 85); on nonzero exit the staging
directory is left in place and stderr is reported (line 88). -/
def generate_icns (env : Env) (fs : Fs) (input_dir output_path : String) :
    Fs × Bool × List String :=
  let iconset_path := strReplace output_path ".icns" ".iconset"
  let fs := fsSet fs iconset_path .dir
  match stageIcons env.stagingFault input_dir iconset_path fs icon_mapping with
  | (fs, some e) =>
      (fs, false, ["Error generating .icns: " ++ toString (repr e)])
  | (fs, none) =>
      match env.iconutil with
      | .unavailable =>
          (fs, false, ["Error generating .icns: iconutil not found"])
      | .ran exitCode stderr container =>
          if exitCode = 0 then
            let fs := fsSet fs output_path (.file (.icns container))
            (rmtree fs iconset_path, true, ["Created: " ++ output_path])
          else
            (fs, false, ["Error creating .icns: " ++ stderr])

/-! ## update_contents_json (generate-icons.py lines 96-117) -/

/-- `update_contents_json`, generate-icons.py lines 96-117: serialize the
literal `contents` record to `<output_dir>/Contents.json`, overwriting
any existing file. -/
def update_contents_json (fs : Fs) (output_dir : String) : Fs :=
  fsSet fs (pjoin output_dir "Contents.json") (.file (.jsonManifest contentsRecord))

/-! ## main (generate-icons.py lines 136-194) -/

/-- `source_path`, line 138. -/
def sourcePath (root : String) : String :=
  root ++ "/offline_cinema.icon/Assets/output.png"

/-- `output_dir`, line 139. -/
def outputDir (root : String) : String :=
  root ++ "/OfflineCinema/Assets.xcassets/AppIcon.appiconset"

/-- `icns_path`, line 140. -/
def icnsPath (root : String) : String :=
  root ++ "/OfflineCinema.app/Contents/Resources/AppIcon.icns"

/-- `os.path.dirname(icns_path)`, line 179. -/
def icnsDir (root : String) : String :=
  root ++ "/OfflineCinema.app/Contents/Resources"

/-- `branding_icns`, line 171. -/
def brandingIcns (root : String) : String :=
  root ++ "/branding/AppIcon.icns"

/-- `os.path.dirname(branding_icns)`, line 172. -/
def brandingDir (root : String) : String :=
  root ++ "/branding"

/-- Path of the bitmap written for one icon spec, line 164. -/
def bitmapPath (root : String) (spec : IconSpec) : String :=
  pjoin (outputDir root) spec.filename

/-- Path of the manifest, line 114. -/
def contentsPath (root : String) : String :=
  pjoin (outputDir root) "Contents.json"

/-- `create_icon`, generate-icons.py lines 28-49: render and save. -/
def create_icon (fs : Fs) (source_img : Img) (output_path : String)
    (size scale : Nat) : Fs :=
  fsSet fs output_path (.file (.png (renderIcon source_img size scale)))

/-- The generation loop of `main`, lines 163-165. -/
def writeIcons (img : Img) (output_dir : String) (fs : Fs) : Fs :=
  ICON_SIZES.foldl
    (fun acc spec => create_icon acc img (pjoin output_dir spec.filename) spec.size spec.scale)
    fs

/-- The square source image of `main`, lines 156-158:
`Image.open(source_path).convert("RGBA")` then `crop_to_square`. -/
def sourceSquare (img0 : Img) : Img :=
  crop_to_square (img0.convert .RGBA)

/-- How the process ends: `main` returned an exit code, or an exception
escaped `main` (Python then terminates with a traceback and a nonzero
process status). -/
inductive ExitResult where
  | exited (code : Nat)
  | raised (e : PyErr)
deriving DecidableEq, Repr

/-- Filesystem effect of lines 146-172 of `main`: create the output
directory, render the 10 bitmaps, write the manifest, create the
branding directory. -/
def pipelinePre (fs : Fs) (root : String) (img0 : Img) : Fs :=
  let fs := fsSet fs (outputDir root) .dir
  let fs := writeIcons (sourceSquare img0) (outputDir root) fs
  let fs := update_contents_json fs (outputDir root)
  fsSet fs (brandingDir root) .dir

/-- Filesystem effect of lines 146-176 of `main`: `pipelinePre` followed
by the packager (whose boolean result line 176 discards). -/
def pipelineFs (env : Env) (fs : Fs) (root : String) (img0 : Img) : Fs :=
  (generate_icns env (pipelinePre fs root img0) (outputDir root) (brandingIcns root)).1

/-- Lines 178-182 and 194 of `main`: if the app-bundle resource
directory exists, copy the branding container there (`shutil.copy2`
raises when that container was never produced, and nothing catches it);
then return 0. -/
def distribute (fs : Fs) (root : String) : Fs × ExitResult :=
  if fsExists fs (icnsDir root) then
    match copy2 fs (brandingIcns root) (icnsPath root) with
    | .ok fs' => (fs', .exited 0)
    | .error e => (fs, .raised e)
  else
    (fs, .exited 0)

/-- `main`, generate-icons.py lines 136-194, with `script_dir` as `root`.
Line 142: missing source → return 1.  Otherwise the pipeline
(`pipelineFs`) runs and then the distribution copy (`distribute`). -/
def main (env : Env) (fs : Fs) (root : String) : Fs × ExitResult :=
  match fsGet fs (sourcePath root) with
  | none => (fs, .exited 1)
  | some entry =>
      match entry with
      | .file (.png img0) => distribute (pipelineFs env fs root img0) root
      | _ => (fsSet fs (outputDir root) .dir,
              .raised (.osError "cannot identify image file"))

/-- A path that holds no directory (used for staging sources: `copy2`
cannot raise `IsADirectoryError` there). -/
def fileOrMissing (fs : Fs) (p : String) : Prop :=
  ∀ e, fsGet fs p = some e → ∃ d, e = .file d

/-! ## Helper lemmas about the filesystem model -/

theorem fsGet_set_same (fs : Fs) (p : String) (e : Entry) :
    fsGet (fsSet fs p e) p = some e := by
  simp [fsSet, fsGet]

theorem fsGet_set_ne (fs : Fs) (p q : String) (e : Entry) (h : q ≠ p) :
    fsGet (fsSet fs p e) q = fsGet fs q := by
  simp [fsSet, fsGet, h]

theorem fsGet_filter_none (p : String) (pred : String × Entry → Bool)
    (h : ∀ e, pred (p, e) = false) :
    ∀ fs : Fs, fsGet (fs.filter pred) p = none := by
  intro fs
  induction fs with
  | nil => rfl
  | cons hd tl ih =>
      rcases hd with ⟨k, e⟩
      rw [List.filter_cons]
      rcases hpred : pred (k, e) with _ | _
      · simpa only [Bool.false_eq_true, if_false] using ih
      · simp only [if_true]
        have hk : ¬ p = k := by
          intro hpk
          rw [← hpk] at hpred
          rw [h e] at hpred
          exact absurd hpred (by simp)
        simpa only [fsGet, hk, if_false] using ih

theorem fsGet_filter_keep (q : String) (pred : String × Entry → Bool)
    (h : ∀ e, pred (q, e) = true) :
    ∀ fs : Fs, fsGet (fs.filter pred) q = fsGet fs q := by
  intro fs
  induction fs with
  | nil => rfl
  | cons hd tl ih =>
      rcases hd with ⟨k, e⟩
      rw [List.filter_cons]
      by_cases hk : q = k
      · subst hk
        rw [h e]
        simp only [if_true, fsGet, if_pos rfl]
      · rcases hpred : pred (k, e) with _ | _
        · simp only [Bool.false_eq_true, if_false]
          rw [ih]
          simp only [fsGet, hk, if_false]
        · simp only [if_true]
          simp only [fsGet, hk, if_false]
          exact ih

theorem fsGet_rmtree_self (fs : Fs) (p : String) :
    fsGet (rmtree fs p) p = none := by
  rw [rmtree]
  apply fsGet_filter_none
  intro e
  simp

theorem fsGet_rmtree_ne (fs : Fs) (p q : String) (h1 : q ≠ p)
    (h2 : isUnder p q = false) :
    fsGet (rmtree fs p) q = fsGet fs q := by
  rw [rmtree]
  apply fsGet_filter_keep
  intro e
  simp [h1, h2]

/-! ## Helper lemmas about path strings -/

theorem pjoin_data (a b : String) : (pjoin a b).data = (a ++ "/").data ++ b.data := by
  simp [pjoin, String.data_append]

theorem isUnder_pjoin (p d : String) : isUnder p (pjoin p d) = true := by
  rw [isUnder, pjoin_data, List.isPrefixOf_iff_prefix]
  exact List.prefix_append _ _

theorem pjoin_ne_base (p d : String) : pjoin p d ≠ p := by
  intro h
  have hl := congrArg (fun s => s.data.length) h
  simp only [pjoin_data, List.length_append, String.data_append] at hl
  have hslash : "/".data.length = 1 := rfl
  rw [hslash] at hl
  omega

theorem pjoin_right_inj {a x y : String} (h : pjoin a x = pjoin a y) : x = y := by
  apply String.ext
  have hd := congrArg String.data h
  rw [pjoin_data, pjoin_data] at hd
  exact List.append_cancel_left hd

/-- Appending distinct suffixes to the same root gives distinct paths. -/
theorem append_suffix_inj {root x y : String} (h : root ++ x = root ++ y) : x = y := by
  apply String.ext
  have hd := congrArg String.data h
  rw [String.data_append, String.data_append] at hd
  exact List.append_cancel_left hd

/-- `isUnder` between two paths with a common root reduces to the
suffixes. -/
theorem isUnder_append (root a b : String) :
    isUnder (root ++ a) (root ++ b) = (a ++ "/").data.isPrefixOf b.data := by
  rw [isUnder]
  have h1 : (root ++ a ++ "/").data = root.data ++ (a ++ "/").data := by
    simp [String.data_append]
  have h2 : (root ++ b).data = root.data ++ b.data := by
    simp [String.data_append]
  rw [h1, h2]
  rcases hp : (a ++ "/").data.isPrefixOf b.data with _ | _
  · rcases hcl : (root.data ++ (a ++ "/").data).isPrefixOf (root.data ++ b.data) with _ | _
    · rfl
    · exfalso
      rw [List.isPrefixOf_iff_prefix] at hcl
      have hpre := (List.prefix_append_right_inj root.data).1 hcl
      rw [← List.isPrefixOf_iff_prefix, hp] at hpre
      exact absurd hpre (by simp)
  · rw [List.isPrefixOf_iff_prefix]
    exact (List.prefix_append_right_inj root.data).2
      (List.isPrefixOf_iff_prefix.1 hp)

/-! ## Helper lemmas about the staging loop -/

theorem copy2_ok_eq {fs fs' : Fs} {src dst : String}
    (h : copy2 fs src dst = .ok fs') :
    ∃ c, fsGet fs src = some (.file c) ∧ fs' = fsSet fs dst (.file c) := by
  unfold copy2 at h
  rcases hg : fsGet fs src with _ | e
  · rw [hg] at h
    exact absurd h (by simp)
  · rcases e with d | _
    · rw [hg] at h
      simp only [Except.ok.injEq] at h
      exact ⟨d, rfl, h.symm⟩
    · rw [hg] at h
      exact absurd h (by simp)

theorem fileOrMissing_set_file (fs : Fs) (p q : String) (c : FData)
    (h : fileOrMissing fs q) : fileOrMissing (fsSet fs p (.file c)) q := by
  intro e he
  by_cases hq : q = p
  · subst hq
    rw [fsGet_set_same] at he
    refine ⟨c, ?_⟩
    exact (Option.some.injEq _ _ ▸ he).symm
  · rw [fsGet_set_ne fs p q _ hq] at he
    exact h e he

/-- Without a filesystem fault, and with no directory sitting at a
staging source path, the staging loop raises nothing. -/
theorem stageIcons_no_fault (input_dir iconset_path : String) :
    ∀ (l : List (String × String)) (fs : Fs),
      (∀ pr ∈ l, fileOrMissing fs (pjoin input_dir pr.1)) →
      (stageIcons false input_dir iconset_path fs l).2 = none := by
  intro l
  induction l with
  | nil => intro fs _; rfl
  | cons hd tl ih =>
      intro fs hsrc
      rcases hd with ⟨srcName, dstName⟩
      rw [stageIcons]
      rcases hex : fsExists fs (pjoin input_dir srcName) with _ | _
      · simp only [hex, Bool.false_eq_true, if_false]
        exact ih fs (fun pr hpr => hsrc pr (List.mem_cons_of_mem _ hpr))
      · simp only [hex, if_true, Bool.false_eq_true, if_false]
        rw [fsExists] at hex
        rcases he : fsGet fs (pjoin input_dir srcName) with _ | e
        · rw [he] at hex; simp at hex
        · rcases hsrc _ (List.mem_cons_self _ _) e he with ⟨d, rfl⟩
          rw [copy2, he]
          exact ih _ (fun pr hpr =>
            fileOrMissing_set_file _ _ _ _ (hsrc pr (List.mem_cons_of_mem _ hpr)))

theorem ne_pjoin_of_not_under {iconset_path q : String}
    (hu : isUnder iconset_path q = false) : ∀ d, q ≠ pjoin iconset_path d := by
  intro d h
  rw [h, isUnder_pjoin] at hu
  exact absurd hu (by simp)

/-- The staging loop only writes at paths of the form
`iconset_path/<dst>`; every other path keeps its entry. -/
theorem stageIcons_frame (fault : Bool) (input_dir iconset_path : String) :
    ∀ (l : List (String × String)) (fs : Fs) (q : String),
      (∀ d, q ≠ pjoin iconset_path d) →
      fsGet (stageIcons fault input_dir iconset_path fs l).1 q = fsGet fs q := by
  intro l
  induction l with
  | nil => intro fs q _; rfl
  | cons hd tl ih =>
      intro fs q hnw
      rcases hd with ⟨srcName, dstName⟩
      rw [stageIcons]
      rcases hex : fsExists fs (pjoin input_dir srcName) with _ | _
      · simp only [hex, Bool.false_eq_true, if_false]
        exact ih fs q hnw
      · simp only [hex, if_true]
        rcases fault with _ | _
        · simp only [Bool.false_eq_true, if_false]
          rcases hc : copy2 fs (pjoin input_dir srcName) (pjoin iconset_path dstName)
            with e | fs'
          · rfl
          · rcases copy2_ok_eq hc with ⟨c, _, rfl⟩
            rw [ih _ q hnw, fsGet_set_ne]
            exact hnw dstName
        · rfl

/-- If every mapping pair targeting a given destination name has a
missing source, the staging loop leaves that destination path untouched
(missing bitmaps are skipped, nothing staged for them). -/
theorem stageIcons_skip (fault : Bool) (input_dir iconset_path dstName : String) :
    ∀ (l : List (String × String)) (fs : Fs),
      (∀ pr ∈ l, isUnder iconset_path (pjoin input_dir pr.1) = false) →
      (∀ pr ∈ l, pr.2 = dstName → fsGet fs (pjoin input_dir pr.1) = none) →
      fsGet (stageIcons fault input_dir iconset_path fs l).1 (pjoin iconset_path dstName)
        = fsGet fs (pjoin iconset_path dstName) := by
  intro l
  induction l with
  | nil => intro fs _ _; rfl
  | cons hd tl ih =>
      intro fs hsep hmiss
      rcases hd with ⟨srcName, dn⟩
      rw [stageIcons]
      rcases hex : fsExists fs (pjoin input_dir srcName) with _ | _
      · simp only [hex, Bool.false_eq_true, if_false]
        exact ih fs (fun pr hpr => hsep pr (List.mem_cons_of_mem _ hpr))
          (fun pr hpr => hmiss pr (List.mem_cons_of_mem _ hpr))
      · simp only [hex, if_true]
        have hdn : dn ≠ dstName := by
          intro hdd
          have := hmiss (srcName, dn) (List.mem_cons_self _ _) hdd
          rw [fsExists, this] at hex
          simp at hex
        rcases fault with _ | _
        · simp only [Bool.false_eq_true, if_false]
          rcases hc : copy2 fs (pjoin input_dir srcName) (pjoin iconset_path dn)
            with e | fs'
          · rfl
          · rcases copy2_ok_eq hc with ⟨c, _, rfl⟩
            rw [ih _ (fun pr hpr => hsep pr (List.mem_cons_of_mem _ hpr)) ?_, fsGet_set_ne]
            · intro hjj
              exact hdn (pjoin_right_inj hjj).symm
            · intro pr hpr hpr2
              rw [fsGet_set_ne]
              · exact hmiss pr (List.mem_cons_of_mem _ hpr) hpr2
              · intro hsrceq
                have hu := hsep pr (List.mem_cons_of_mem _ hpr)
                rw [hsrceq, isUnder_pjoin] at hu
                exact absurd hu (by simp)
        · rfl

theorem fileOrMissing_iff (fs : Fs) (p : String) :
    fileOrMissing fs p ↔ fsGet fs p ≠ some .dir := by
  constructor
  · intro h hc
    rcases h _ hc with ⟨d, hd⟩
    cases hd
  · intro h e he
    rcases e with d | _
    · exact ⟨d, rfl⟩
    · exact absurd he h

/-! ## Helper lemmas about `strReplace` and the staging path

`generate_icns` derives the staging path by replacing `".icns"` with
`".iconset"` anywhere in the output path.  When the install root itself
contains no `'.'` character, no pattern occurrence can start inside the
root, so the replacement only rewrites the `"/branding/AppIcon.icns"`
suffix. -/

theorem replaceFuel_skip (pat' rep : List Char) :
    ∀ (r : List Char), (∀ c ∈ r, c ≠ '.') → ∀ (fuel : Nat) (t : List Char),
      replaceFuel ('.' :: pat') rep (r.length + fuel) (r ++ t)
        = r ++ replaceFuel ('.' :: pat') rep fuel t := by
  intro r
  induction r with
  | nil => intro _ fuel t; simp
  | cons c r' ih =>
      intro hnd fuel t
      have hc : c ≠ '.' := hnd c (List.mem_cons_self _ _)
      have harr : (c :: r').length + fuel = (r'.length + fuel) + 1 := by
        simp only [List.length_cons]
        omega
      rw [List.cons_append, harr, replaceFuel]
      have hpre : ('.' :: pat').isPrefixOf (c :: (r' ++ t)) = false := by
        simp only [List.isPrefixOf, Bool.and_eq_false_iff]
        left
        exact beq_eq_false_iff_ne.2 (Ne.symm hc)
      rw [hpre]
      simp only [Bool.false_eq_true, if_false]
      rw [ih (fun x hx => hnd x (List.mem_cons_of_mem _ hx)) fuel t]
      simp [List.cons_append]

/-- With a dot-free root, the staging path computed from the branding
container path is exactly `<root>/branding/AppIcon.iconset`. -/
theorem strReplace_branding (root : String)
    (hnd : ∀ c ∈ root.data, c ≠ '.') :
    strReplace (brandingIcns root) ".icns" ".iconset"
      = root ++ "/branding/AppIcon.iconset" := by
  rw [brandingIcns, strReplace, if_neg (by decide)]
  apply String.ext
  show replaceFuel ".icns".data ".iconset".data
      (root ++ "/branding/AppIcon.icns").data.length
      (root ++ "/branding/AppIcon.icns").data
    = (root ++ "/branding/AppIcon.iconset").data
  rw [String.data_append, String.data_append, List.length_append]
  rw [show (".icns".data : List Char) = '.' :: "icns".data from rfl]
  rw [replaceFuel_skip "icns".data ".iconset".data root.data hnd _ _]
  congr 1

/-! ## Frame lemma for the packager -/

/-- `generate_icns` only touches the staging directory (and what is
beneath it) and the output path; every other path keeps its entry. -/
theorem generate_icns_frame (env : Env) (fs : Fs)
    (input_dir output_path q : String)
    (h2 : q ≠ strReplace output_path ".icns" ".iconset")
    (h3 : q ≠ output_path)
    (h4 : isUnder (strReplace output_path ".icns" ".iconset") q = false) :
    fsGet (generate_icns env fs input_dir output_path).1 q = fsGet fs q := by
  have h1 := ne_pjoin_of_not_under h4
  have hstage : ∀ (fs2 : Fs) (oe : Option PyErr),
      stageIcons env.stagingFault input_dir
        (strReplace output_path ".icns" ".iconset")
        (fsSet fs (strReplace output_path ".icns" ".iconset") .dir)
        icon_mapping = (fs2, oe) →
      fsGet fs2 q = fsGet fs q := by
    intro fs2 oe hst
    have hh := stageIcons_frame env.stagingFault input_dir
      (strReplace output_path ".icns" ".iconset") icon_mapping
      (fsSet fs (strReplace output_path ".icns" ".iconset") .dir) q h1
    rw [hst] at hh
    simp only at hh
    rw [hh, fsGet_set_ne _ _ _ _ h2]
  simp only [generate_icns]
  split
  · rename_i fs2 e heq
    exact hstage fs2 (some e) heq
  · rename_i fs2 heq
    split
    · exact hstage fs2 none heq
    · rename_i code stderr container hic
      by_cases hcode : code = 0
      · subst hcode
        rw [if_pos rfl]
        show fsGet (rmtree (fsSet fs2 output_path (.file (.icns container)))
            (strReplace output_path ".icns" ".iconset")) q = fsGet fs q
        rw [fsGet_rmtree_ne _ _ _ h2 h4, fsGet_set_ne _ _ _ _ h3]
        exact hstage fs2 none heq
      · rw [if_neg hcode]
        exact hstage fs2 none heq

/-! ## Mode-preservation lemmas -/

theorem crop_to_square_mode (img : Img) :
    (crop_to_square img).mode = img.mode := by
  rw [crop_to_square]
  split
  · rfl
  · rfl

theorem convert_mode (img : Img) (m : Mode) : (img.convert m).mode = m := by
  rw [Img.convert]
  split
  · rename_i h
    exact h
  · rfl

theorem sourceSquare_mode (img0 : Img) : (sourceSquare img0).mode = .RGBA := by
  rw [sourceSquare, crop_to_square_mode, convert_mode]

/-- With an RGBA source, `create_icon`'s rendering always takes the
composite-over-black branch. -/
theorem renderIcon_of_RGBA (img : Img) (size scale : Nat)
    (h : img.mode = .RGBA) :
    renderIcon img size scale =
      { width := size * scale, height := size * scale, mode := .RGB,
        px := .compositeOverBlack
          (.resample .lanczos img.px (size * scale) (size * scale)) } := by
  rw [renderIcon]
  simp only [Img.resize, h, if_pos rfl]
  rw [if_pos trivial]

/-! ## Lemmas about the icon-rendering loop -/

theorem iconFold_frame (img : Img) (od : String) :
    ∀ (l : List IconSpec) (fs : Fs) (q : String),
      (∀ spec ∈ l, q ≠ pjoin od spec.filename) →
      fsGet (List.foldl (fun acc spec =>
          create_icon acc img (pjoin od spec.filename) spec.size spec.scale) fs l) q
        = fsGet fs q := by
  intro l
  induction l with
  | nil => intro fs q _; rfl
  | cons hd tl ih =>
      intro fs q hq
      rw [List.foldl_cons]
      rw [ih _ q (fun s hs => hq s (List.mem_cons_of_mem _ hs))]
      rw [create_icon, fsGet_set_ne _ _ _ _ (hq hd (List.mem_cons_self _ _))]

theorem iconFold_lookup (img : Img) (od : String) :
    ∀ (l : List IconSpec) (fs : Fs) (spec : IconSpec), spec ∈ l →
      List.Pairwise (fun a b => a.filename ≠ b.filename) l →
      fsGet (List.foldl (fun acc spec =>
          create_icon acc img (pjoin od spec.filename) spec.size spec.scale) fs l)
          (pjoin od spec.filename)
        = some (.file (.png (renderIcon img spec.size spec.scale))) := by
  intro l
  induction l with
  | nil => intro fs spec h _; cases h
  | cons hd tl ih =>
      intro fs spec hmem hpw
      rw [List.foldl_cons]
      rcases List.mem_cons.1 hmem with heq | hmem'
      · subst heq
        have hfr := iconFold_frame img od tl
          (create_icon fs img (pjoin od spec.filename) spec.size spec.scale)
          (pjoin od spec.filename)
          (fun s hs hc => (List.pairwise_cons.1 hpw).1 s hs (pjoin_right_inj hc))
        rw [hfr, create_icon, fsGet_set_same]
      · exact ih _ spec hmem' (List.pairwise_cons.1 hpw).2

/-! ## Path-normalization facts -/

theorem ne_of_suffix {a b : String} (root : String) (h : a ≠ b) :
    root ++ a ≠ root ++ b :=
  fun hc => h (append_suffix_inj hc)

theorem pjoin_outputDir_eq (root f : String) :
    pjoin (outputDir root) f
      = root ++ ("/OfflineCinema/Assets.xcassets/AppIcon.appiconset/" ++ f) := by
  apply String.ext
  simp [pjoin, outputDir, String.data_append, List.append_assoc]

theorem contentsPath_eq (root : String) :
    contentsPath root
      = root ++ "/OfflineCinema/Assets.xcassets/AppIcon.appiconset/Contents.json" := by
  rw [contentsPath, pjoin_outputDir_eq]
  exact congrArg (fun s => root ++ s) (by decide)

/-! ## Decidable facts about the concrete catalog paths -/

theorem spec_filenames_ne_contents :
    ∀ spec ∈ ICON_SIZES, spec.filename ≠ "Contents.json" := by decide

theorem spec_pairwise :
    List.Pairwise (fun a b : IconSpec => a.filename ≠ b.filename) ICON_SIZES := by
  decide

theorem bitmap_suffix_facts : ∀ spec ∈ ICON_SIZES,
    ("/OfflineCinema/Assets.xcassets/AppIcon.appiconset/" ++ spec.filename : String)
        ≠ "/branding" ∧
    ("/OfflineCinema/Assets.xcassets/AppIcon.appiconset/" ++ spec.filename : String)
        ≠ "/branding/AppIcon.iconset" ∧
    ("/branding/AppIcon.iconset/").data.isPrefixOf
        ("/OfflineCinema/Assets.xcassets/AppIcon.appiconset/" ++ spec.filename : String).data
      = false ∧
    ("/OfflineCinema/Assets.xcassets/AppIcon.appiconset/" ++ spec.filename : String)
        ≠ "/branding/AppIcon.icns" ∧
    ("/OfflineCinema/Assets.xcassets/AppIcon.appiconset/" ++ spec.filename : String)
        ≠ "/OfflineCinema.app/Contents/Resources/AppIcon.icns" := by
  decide

theorem mapping_sources_have_specs :
    ∀ pr ∈ icon_mapping, ∃ spec ∈ ICON_SIZES, spec.filename = pr.1 := by decide

theorem mapping_source_suffix_ne_iconset :
    ∀ pr ∈ icon_mapping,
      ("/OfflineCinema/Assets.xcassets/AppIcon.appiconset/" ++ pr.1 : String)
        ≠ "/branding/AppIcon.iconset" := by decide

/-! ## Lemmas about the distribution step -/

theorem distribute_frame (fs : Fs) (root q : String) (hq : q ≠ icnsPath root) :
    fsGet (distribute fs root).1 q = fsGet fs q := by
  rw [distribute]
  split
  · split
    · rename_i fs' heq
      rcases copy2_ok_eq heq with ⟨c, _, rfl⟩
      exact fsGet_set_ne _ _ _ _ hq
    · rfl
  · rfl

theorem distribute_skip (fs : Fs) (root : String)
    (h : fsExists fs (icnsDir root) = false) :
    distribute fs root = (fs, .exited 0) := by
  rw [distribute, if_neg (by rw [h]; simp)]

theorem distribute_copy (fs : Fs) (root : String) (d : FData)
    (hd : fsGet fs (brandingIcns root) = some (.file d)) :
    (distribute fs root).2 = .exited 0 ∧
    (fsExists fs (icnsDir root) = true →
      fsGet (distribute fs root).1 (icnsPath root) = some (.file d)) := by
  rw [distribute]
  rcases hex : fsExists fs (icnsDir root) with _ | _
  · rw [if_neg (by simp)]
    exact ⟨rfl, fun hc => absurd hc (by simp)⟩
  · rw [if_pos rfl]
    rw [show copy2 fs (brandingIcns root) (icnsPath root)
          = .ok (fsSet fs (icnsPath root) (.file d)) from by rw [copy2, hd]]
    exact ⟨rfl, fun _ => fsGet_set_same _ _ _⟩

theorem distribute_missing (fs : Fs) (root : String)
    (hex : fsExists fs (icnsDir root) = true)
    (hb : fsGet fs (brandingIcns root) = none) :
    distribute fs root = (fs, .raised (.fileNotFound (brandingIcns root))) := by
  rw [distribute, if_pos hex]
  rw [show copy2 fs (brandingIcns root) (icnsPath root)
        = .error (.fileNotFound (brandingIcns root)) from by rw [copy2, hb]]

/-! ## Packager success / failure and its output file -/

theorem generate_icns_success (env : Env) (fs : Fs) (input_dir output_path : String)
    (hfault : env.stagingFault = false)
    (hsrcok : ∀ pr ∈ icon_mapping,
      fileOrMissing (fsSet fs (strReplace output_path ".icns" ".iconset") .dir)
        (pjoin input_dir pr.1))
    (s : String) (c : Nat) (hic : env.iconutil = .ran 0 s c) :
    (generate_icns env fs input_dir output_path).2.1 = true := by
  have hnone : (stageIcons env.stagingFault input_dir
      (strReplace output_path ".icns" ".iconset")
      (fsSet fs (strReplace output_path ".icns" ".iconset") .dir)
      icon_mapping).2 = none := by
    rw [hfault]
    exact stageIcons_no_fault _ _ icon_mapping _ hsrcok
  rcases hst : stageIcons env.stagingFault input_dir
      (strReplace output_path ".icns" ".iconset")
      (fsSet fs (strReplace output_path ".icns" ".iconset") .dir)
      icon_mapping with ⟨fs2, oe⟩
  rw [hst] at hnone
  simp only at hnone
  subst hnone
  simp only [generate_icns, hst, hic, if_pos rfl]
  rw [if_pos trivial]

theorem generate_icns_true_output (env : Env) (fs : Fs)
    (input_dir output_path : String)
    (hne : output_path ≠ strReplace output_path ".icns" ".iconset")
    (hnu : isUnder (strReplace output_path ".icns" ".iconset") output_path = false)
    (h : (generate_icns env fs input_dir output_path).2.1 = true) :
    ∃ c, fsGet (generate_icns env fs input_dir output_path).1 output_path
      = some (.file (.icns c)) := by
  revert h
  simp only [generate_icns]
  split
  · intro h
    simp at h
  · rename_i fs2 heq
    split
    · intro h
      simp at h
    · rename_i code stderr container hic
      by_cases hcode : code = 0
      · subst hcode
        rw [if_pos rfl]
        intro _
        refine ⟨container, ?_⟩
        show fsGet (rmtree (fsSet fs2 output_path (.file (.icns container)))
            (strReplace output_path ".icns" ".iconset")) output_path
          = some (.file (.icns container))
        rw [fsGet_rmtree_ne _ _ _ hne hnu, fsGet_set_same]
      · rw [if_neg hcode]
        intro h
        simp at h

theorem generate_icns_false_output (env : Env) (fs : Fs)
    (input_dir output_path : String)
    (hne : output_path ≠ strReplace output_path ".icns" ".iconset")
    (hnu : isUnder (strReplace output_path ".icns" ".iconset") output_path = false)
    (h : (generate_icns env fs input_dir output_path).2.1 = false) :
    fsGet (generate_icns env fs input_dir output_path).1 output_path
      = fsGet fs output_path := by
  have h1 := ne_pjoin_of_not_under hnu
  have hstage : ∀ (fs2 : Fs) (oe : Option PyErr),
      stageIcons env.stagingFault input_dir
        (strReplace output_path ".icns" ".iconset")
        (fsSet fs (strReplace output_path ".icns" ".iconset") .dir)
        icon_mapping = (fs2, oe) →
      fsGet fs2 output_path = fsGet fs output_path := by
    intro fs2 oe hst
    have hh := stageIcons_frame env.stagingFault input_dir
      (strReplace output_path ".icns" ".iconset") icon_mapping
      (fsSet fs (strReplace output_path ".icns" ".iconset") .dir) output_path h1
    rw [hst] at hh
    simp only at hh
    rw [hh, fsGet_set_ne _ _ _ _ hne]
  revert h
  simp only [generate_icns]
  split
  · rename_i fs2 e heq
    intro _
    exact hstage fs2 (some e) heq
  · rename_i fs2 heq
    split
    · intro _
      exact hstage fs2 none heq
    · rename_i code stderr container hic
      by_cases hcode : code = 0
      · subst hcode
        rw [if_pos rfl]
        intro h
        simp at h
      · rw [if_neg hcode]
        intro _
        exact hstage fs2 none heq

/-! ## Pipeline lemmas -/

theorem pipelinePre_bitmap (fs : Fs) (root : String) (img0 : Img) :
    ∀ spec ∈ ICON_SIZES,
      fsGet (pipelinePre fs root img0) (bitmapPath root spec)
        = some (.file (.png (renderIcon (sourceSquare img0) spec.size spec.scale))) := by
  intro spec hspec
  simp only [pipelinePre]
  rw [fsGet_set_ne _ _ _ _ ?hbrand, update_contents_json,
    fsGet_set_ne _ _ _ _ ?hcont, writeIcons]
  case hbrand =>
    rw [bitmapPath, pjoin_outputDir_eq]
    exact ne_of_suffix root ((bitmap_suffix_facts spec hspec).1)
  case hcont =>
    intro hc
    exact spec_filenames_ne_contents spec hspec (pjoin_right_inj hc)
  exact iconFold_lookup _ _ ICON_SIZES _ spec hspec spec_pairwise

theorem pipelinePre_contents (fs : Fs) (root : String) (img0 : Img) :
    fsGet (pipelinePre fs root img0) (contentsPath root)
      = some (.file (.jsonManifest contentsRecord)) := by
  simp only [pipelinePre, contentsPath]
  rw [fsGet_set_ne _ _ _ _ ?hbrand, update_contents_json, fsGet_set_same]
  case hbrand =>
    rw [pjoin_outputDir_eq]
    exact ne_of_suffix root (by decide)

theorem pipelinePre_frame (fs : Fs) (root : String) (img0 : Img) (q : String)
    (h1 : q ≠ outputDir root)
    (h2 : ∀ spec ∈ ICON_SIZES, q ≠ bitmapPath root spec)
    (h3 : q ≠ contentsPath root)
    (h4 : q ≠ brandingDir root) :
    fsGet (pipelinePre fs root img0) q = fsGet fs q := by
  simp only [pipelinePre]
  simp only [contentsPath] at h3
  rw [fsGet_set_ne _ _ _ _ h4, update_contents_json, fsGet_set_ne _ _ _ _ h3,
    writeIcons, iconFold_frame _ _ _ _ _ h2, fsGet_set_ne _ _ _ _ h1]

/-- The hypotheses under which a path is untouched by the whole
pipeline (`pipelinePre` followed by the packager). -/
def pipelineSafe (root q : String) : Prop :=
  q ≠ outputDir root ∧
  (∀ spec ∈ ICON_SIZES, q ≠ bitmapPath root spec) ∧
  q ≠ contentsPath root ∧
  q ≠ brandingDir root ∧
  q ≠ root ++ "/branding/AppIcon.iconset" ∧
  isUnder (root ++ "/branding/AppIcon.iconset") q = false ∧
  q ≠ brandingIcns root

theorem pipelineSafe_suffix (root suf : String)
    (h1 : suf ≠ "/OfflineCinema/Assets.xcassets/AppIcon.appiconset")
    (h2 : ∀ spec ∈ ICON_SIZES,
      suf ≠ "/OfflineCinema/Assets.xcassets/AppIcon.appiconset/" ++ spec.filename)
    (h3 : suf ≠ "/OfflineCinema/Assets.xcassets/AppIcon.appiconset/Contents.json")
    (h4 : suf ≠ "/branding")
    (h5 : suf ≠ "/branding/AppIcon.iconset")
    (h6 : ("/branding/AppIcon.iconset/").data.isPrefixOf suf.data = false)
    (h7 : suf ≠ "/branding/AppIcon.icns") :
    pipelineSafe root (root ++ suf) := by
  refine ⟨ne_of_suffix root h1, ?_, ?_, ne_of_suffix root h4, ne_of_suffix root h5,
    ?_, ne_of_suffix root h7⟩
  · intro spec hspec
    rw [bitmapPath, pjoin_outputDir_eq]
    exact ne_of_suffix root (h2 spec hspec)
  · rw [contentsPath_eq]
    exact ne_of_suffix root h3
  · rw [isUnder_append]
    exact h6

theorem pipelineFs_frame (env : Env) (fs : Fs) (root : String) (img0 : Img)
    (q : String) (hnd : ∀ c ∈ root.data, c ≠ '.')
    (hsafe : pipelineSafe root q) :
    fsGet (pipelineFs env fs root img0) q = fsGet fs q := by
  rcases hsafe with ⟨h1, h2, h3, h4, h5, h6, h7⟩
  rw [pipelineFs, generate_icns_frame _ _ _ _ _ ?i2 h7 ?i4]
  · exact pipelinePre_frame fs root img0 q h1 h2 h3 h4
  case i2 =>
    rw [strReplace_branding root hnd]
    exact h5
  case i4 =>
    rw [strReplace_branding root hnd]
    exact h6

/-- After the pre-pipeline every staging source path holds a regular
file (the bitmap just rendered), so the staging copies cannot fault on a
directory. -/
theorem pipeline_sources_ok (fs : Fs) (root : String) (img0 : Img)
    (hnd : ∀ c ∈ root.data, c ≠ '.') :
    ∀ pr ∈ icon_mapping,
      fileOrMissing
        (fsSet (pipelinePre fs root img0)
          (strReplace (brandingIcns root) ".icns" ".iconset") .dir)
        (pjoin (outputDir root) pr.1) := by
  intro pr hpr
  rw [fileOrMissing_iff, strReplace_branding root hnd]
  rw [fsGet_set_ne _ _ _ _ ?hne]
  case hne =>
    rw [pjoin_outputDir_eq]
    exact ne_of_suffix root (mapping_source_suffix_ne_iconset pr hpr)
  rcases mapping_sources_have_specs pr hpr with ⟨spec, hspec, hfn⟩
  rw [show pjoin (outputDir root) pr.1 = bitmapPath root spec from by
    rw [bitmapPath, hfn]]
  rw [pipelinePre_bitmap fs root img0 spec hspec]
  simp

/-- Success of the packager as called from `main`, under a working
environment. -/
theorem pipeline_pack_true (env : Env) (fs : Fs) (root : String) (img0 : Img)
    (hnd : ∀ c ∈ root.data, c ≠ '.')
    (hfault : env.stagingFault = false)
    (s : String) (c : Nat) (hic : env.iconutil = .ran 0 s c) :
    (generate_icns env (pipelinePre fs root img0) (outputDir root)
        (brandingIcns root)).2.1 = true :=
  generate_icns_success env _ _ _ hfault (pipeline_sources_ok fs root img0 hnd) s c hic

theorem brandingIcns_ne_iconset (root : String)
    (hnd : ∀ c ∈ root.data, c ≠ '.') :
    brandingIcns root ≠ strReplace (brandingIcns root) ".icns" ".iconset" := by
  rw [strReplace_branding root hnd, brandingIcns]
  exact ne_of_suffix root (by decide)

theorem brandingIcns_not_under_iconset (root : String)
    (hnd : ∀ c ∈ root.data, c ≠ '.') :
    isUnder (strReplace (brandingIcns root) ".icns" ".iconset")
      (brandingIcns root) = false := by
  rw [strReplace_branding root hnd, brandingIcns, isUnder_append]
  decide

/-- The branding container after the pipeline: a fresh container when
the packager reported success, the pre-run entry otherwise. -/
theorem pipeline_branding (env : Env) (fs : Fs) (root : String) (img0 : Img)
    (hnd : ∀ c ∈ root.data, c ≠ '.') :
    ((generate_icns env (pipelinePre fs root img0) (outputDir root)
        (brandingIcns root)).2.1 = true →
      ∃ c, fsGet (pipelineFs env fs root img0) (brandingIcns root)
        = some (.file (.icns c))) ∧
    ((generate_icns env (pipelinePre fs root img0) (outputDir root)
        (brandingIcns root)).2.1 = false →
      fsGet (pipelineFs env fs root img0) (brandingIcns root)
        = fsGet fs (brandingIcns root)) := by
  constructor
  · intro h
    exact generate_icns_true_output env _ _ _ (brandingIcns_ne_iconset root hnd)
      (brandingIcns_not_under_iconset root hnd) h
  · intro h
    rw [pipelineFs, generate_icns_false_output env _ _ _
      (brandingIcns_ne_iconset root hnd) (brandingIcns_not_under_iconset root hnd) h]
    apply pipelinePre_frame
    · rw [brandingIcns, outputDir]
      exact ne_of_suffix root (by decide)
    · intro spec hspec
      rw [brandingIcns, bitmapPath, pjoin_outputDir_eq]
      exact ne_of_suffix root (fun hc => (bitmap_suffix_facts spec hspec).2.2.2.1 hc.symm)
    · rw [brandingIcns, contentsPath_eq]
      exact ne_of_suffix root (by decide)
    · rw [brandingIcns, brandingDir]
      exact ne_of_suffix root (by decide)

theorem pipeline_source_frame (env : Env) (fs : Fs) (root : String) (img0 : Img)
    (hnd : ∀ c ∈ root.data, c ≠ '.') :
    fsGet (pipelineFs env fs root img0) (sourcePath root)
      = fsGet fs (sourcePath root) :=
  pipelineFs_frame env fs root img0 _ hnd
    (pipelineSafe_suffix root _ (by decide) (by decide) (by decide) (by decide)
      (by decide) (by decide) (by decide))

theorem pipeline_icnsDir_frame (env : Env) (fs : Fs) (root : String) (img0 : Img)
    (hnd : ∀ c ∈ root.data, c ≠ '.') :
    fsGet (pipelineFs env fs root img0) (icnsDir root)
      = fsGet fs (icnsDir root) :=
  pipelineFs_frame env fs root img0 _ hnd
    (pipelineSafe_suffix root _ (by decide) (by decide) (by decide) (by decide)
      (by decide) (by decide) (by decide))

theorem pipeline_icnsPath_frame (env : Env) (fs : Fs) (root : String) (img0 : Img)
    (hnd : ∀ c ∈ root.data, c ≠ '.') :
    fsGet (pipelineFs env fs root img0) (icnsPath root)
      = fsGet fs (icnsPath root) :=
  pipelineFs_frame env fs root img0 _ hnd
    (pipelineSafe_suffix root _ (by decide) (by decide) (by decide) (by decide)
      (by decide) (by decide) (by decide))

theorem pipelineFs_bitmap (env : Env) (fs : Fs) (root : String) (img0 : Img)
    (hnd : ∀ c ∈ root.data, c ≠ '.') :
    ∀ spec ∈ ICON_SIZES,
      fsGet (pipelineFs env fs root img0) (bitmapPath root spec)
        = some (.file (.png (renderIcon (sourceSquare img0) spec.size spec.scale))) := by
  intro spec hspec
  rw [pipelineFs, generate_icns_frame _ _ _ _ _ ?i2 ?i3 ?i4]
  · exact pipelinePre_bitmap fs root img0 spec hspec
  case i2 =>
    rw [strReplace_branding root hnd, bitmapPath, pjoin_outputDir_eq]
    exact ne_of_suffix root ((bitmap_suffix_facts spec hspec).2.1)
  case i3 =>
    rw [brandingIcns, bitmapPath, pjoin_outputDir_eq]
    exact ne_of_suffix root ((bitmap_suffix_facts spec hspec).2.2.2.1)
  case i4 =>
    rw [strReplace_branding root hnd, bitmapPath, pjoin_outputDir_eq, isUnder_append]
    exact (bitmap_suffix_facts spec hspec).2.2.1

theorem pipelineFs_contents (env : Env) (fs : Fs) (root : String) (img0 : Img)
    (hnd : ∀ c ∈ root.data, c ≠ '.') :
    fsGet (pipelineFs env fs root img0) (contentsPath root)
      = some (.file (.jsonManifest contentsRecord)) := by
  rw [pipelineFs, generate_icns_frame _ _ _ _ _ ?i2 ?i3 ?i4]
  · exact pipelinePre_contents fs root img0
  case i2 =>
    rw [strReplace_branding root hnd, contentsPath_eq]
    exact ne_of_suffix root (by decide)
  case i3 =>
    rw [brandingIcns, contentsPath_eq]
    exact ne_of_suffix root (by decide)
  case i4 =>
    rw [strReplace_branding root hnd, contentsPath_eq, isUnder_append]
    decide

/-! ## Master lemma about `main` -/

/-- On a run whose source is present, `main` runs the pipeline and the
distribution step; the source file, every bitmap and the manifest are as
the pipeline leaves them (the distribution step touches only the
app-bundle container path). -/
theorem main_outputs (env : Env) (fs : Fs) (root : String) (img0 : Img)
    (hnd : ∀ c ∈ root.data, c ≠ '.')
    (hsrc : fsGet fs (sourcePath root) = some (.file (.png img0))) :
    fsGet (main env fs root).1 (sourcePath root) = some (.file (.png img0)) ∧
    (∀ spec ∈ ICON_SIZES,
      fsGet (main env fs root).1 (bitmapPath root spec)
        = some (.file (.png (renderIcon (sourceSquare img0) spec.size spec.scale)))) ∧
    fsGet (main env fs root).1 (contentsPath root)
      = some (.file (.jsonManifest contentsRecord)) := by
  have hmain : main env fs root = distribute (pipelineFs env fs root img0) root := by
    rw [main, hsrc]
  rw [hmain]
  refine ⟨?_, ?_, ?_⟩
  · rw [distribute_frame _ _ _ ?_, pipeline_source_frame env fs root img0 hnd, hsrc]
    rw [sourcePath, icnsPath]
    exact ne_of_suffix root (by decide)
  · intro spec hspec
    rw [distribute_frame _ _ _ ?_, pipelineFs_bitmap env fs root img0 hnd spec hspec]
    rw [bitmapPath, pjoin_outputDir_eq, icnsPath]
    exact ne_of_suffix root ((bitmap_suffix_facts spec hspec).2.2.2.2)
  · rw [distribute_frame _ _ _ ?_, pipelineFs_contents env fs root img0 hnd]
    rw [contentsPath_eq, icnsPath]
    exact ne_of_suffix root (by decide)

/-! ## Theorems settling the claims -/

/-- C3: `crop_to_square` returns the input unchanged when width equals
height; otherwise it crops to the centered square of side
`min width height` at offsets `left = (width-size)//2`,
`top = (height-size)//2`, the result has equal width and height, the
square lies fully inside the input, and its side is the largest that
fits. -/
theorem crop_to_square_correct (img : Img) :
    (img.width = img.height → crop_to_square img = img) ∧
    (img.width ≠ img.height →
      (crop_to_square img).width = min img.width img.height ∧
      (crop_to_square img).height = min img.width img.height ∧
      crop_to_square img =
        img.cropBox ((img.width - min img.width img.height) / 2)
          ((img.height - min img.width img.height) / 2)
          ((img.width - min img.width img.height) / 2 + min img.width img.height)
          ((img.height - min img.width img.height) / 2 + min img.width img.height) ∧
      (img.width - min img.width img.height) / 2 + min img.width img.height ≤ img.width ∧
      (img.height - min img.width img.height) / 2 + min img.width img.height ≤ img.height ∧
      (∀ k, k ≤ img.width → k ≤ img.height → k ≤ min img.width img.height)) := by
  constructor
  · intro h
    simp [crop_to_square, h]
  · intro h
    rw [crop_to_square, if_neg h]
    refine ⟨by simp [Img.cropBox], by simp [Img.cropBox], rfl, ?_, ?_, ?_⟩
    · omega
    · omega
    · intro k hk1 hk2
      omega

/-- Witness for `crop_to_square_correct` at a concrete 1000×600 image. -/
theorem crop_to_square_correct_witness :
    (1000 : Nat) ≠ 600 ∧
    crop_to_square ⟨1000, 600, .RGB, .src 0⟩ =
      Img.cropBox ⟨1000, 600, .RGB, .src 0⟩ 200 0 800 600 :=
  ⟨by decide, ((crop_to_square_correct ⟨1000, 600, .RGB, .src 0⟩).2 (by decide)).2.2.1⟩

/-- C4: for every spec of the 10-entry catalog, the rendered bitmap has
width and height exactly `size * scale`, and its pixels are the Lanczos
resampling of the square source (post-composed with the mode
normalization of lines 40-46). -/
theorem renderIcon_size_lanczos (img : Img) (spec : IconSpec)
    (h : spec ∈ ICON_SIZES) :
    (renderIcon img spec.size spec.scale).width = spec.size * spec.scale ∧
    (renderIcon img spec.size spec.scale).height = spec.size * spec.scale ∧
    (renderIcon img spec.size spec.scale).px =
      (if img.mode = .RGBA then
        .compositeOverBlack
          (.resample .lanczos img.px (spec.size * spec.scale) (spec.size * spec.scale))
       else if img.mode = .RGB then
        .resample .lanczos img.px (spec.size * spec.scale) (spec.size * spec.scale)
       else
        .convertTo .RGB
          (.resample .lanczos img.px (spec.size * spec.scale) (spec.size * spec.scale))) := by
  clear h
  rcases img with ⟨w, ht, m, p⟩
  cases m <;> simp [renderIcon, Img.resize, Img.convert]

/-- Witness for `renderIcon_size_lanczos`: the `(16, 1)` spec on a
concrete RGBA image yields a 16×16 bitmap from a Lanczos resample. -/
theorem renderIcon_size_lanczos_witness :
    (⟨16, 1, "icon_16x16.png"⟩ : IconSpec) ∈ ICON_SIZES ∧
    (renderIcon ⟨800, 800, .RGBA, .src 0⟩ 16 1).width = 16 ∧
    (renderIcon ⟨800, 800, .RGBA, .src 0⟩ 16 1).px =
      .compositeOverBlack (.resample .lanczos (.src 0) 16 16) := by
  refine ⟨by decide, ?_, ?_⟩
  · exact (renderIcon_size_lanczos ⟨800, 800, .RGBA, .src 0⟩
      ⟨16, 1, "icon_16x16.png"⟩ (by decide)).1
  · have h := (renderIcon_size_lanczos ⟨800, 800, .RGBA, .src 0⟩
      ⟨16, 1, "icon_16x16.png"⟩ (by decide)).2.2
    simpa using h

/-- C5: every rendered bitmap has mode RGB (no alpha channel); when the
resampled image carries alpha the output pixels are the alpha-composite
over opaque black, `out = src.rgb * src.a + (0,0,0) * (1 - src.a)` with
alpha 1; otherwise the image is coerced to RGB directly (identity when
already RGB, a direct mode conversion else). -/
theorem renderIcon_opaque (img : Img) (size scale : Nat) :
    (renderIcon img size scale).mode = .RGB ∧
    (img.mode = .RGBA →
      (renderIcon img size scale).px =
        .compositeOverBlack (.resample .lanczos img.px (size * scale) (size * scale)) ∧
      ∀ (renv : PixExpr → Nat → Nat → Quad) (x y : Nat),
        evalPix renv (renderIcon img size scale).px x y =
          { r := (evalPix renv (.resample .lanczos img.px (size * scale) (size * scale)) x y).r
                  * (evalPix renv (.resample .lanczos img.px (size * scale) (size * scale)) x y).a
                  + 0 * (1 - (evalPix renv (.resample .lanczos img.px (size * scale) (size * scale)) x y).a),
            g := (evalPix renv (.resample .lanczos img.px (size * scale) (size * scale)) x y).g
                  * (evalPix renv (.resample .lanczos img.px (size * scale) (size * scale)) x y).a
                  + 0 * (1 - (evalPix renv (.resample .lanczos img.px (size * scale) (size * scale)) x y).a),
            b := (evalPix renv (.resample .lanczos img.px (size * scale) (size * scale)) x y).b
                  * (evalPix renv (.resample .lanczos img.px (size * scale) (size * scale)) x y).a
                  + 0 * (1 - (evalPix renv (.resample .lanczos img.px (size * scale) (size * scale)) x y).a),
            a := 1 }) ∧
    (img.mode ≠ .RGBA →
      (renderIcon img size scale).px =
        (if img.mode = .RGB then
          .resample .lanczos img.px (size * scale) (size * scale)
         else
          .convertTo .RGB (.resample .lanczos img.px (size * scale) (size * scale)))) := by
  rcases img with ⟨w, ht, m, p⟩
  cases m <;> simp [renderIcon, Img.resize, Img.convert, evalPix]

/-- Witness for `renderIcon_opaque` at a concrete RGBA image and a
concrete pixel environment. -/
theorem renderIcon_opaque_witness :
    (renderIcon ⟨800, 800, .RGBA, .src 0⟩ 512 2).mode = .RGB ∧
    evalPix (fun _ _ _ => ⟨1, 1, 1, 0⟩)
        (renderIcon ⟨800, 800, .RGBA, .src 0⟩ 512 2).px 0 0 =
      ⟨1 * 0 + 0 * (1 - 0), 1 * 0 + 0 * (1 - 0), 1 * 0 + 0 * (1 - 0), 1⟩ := by
  have h := renderIcon_opaque ⟨800, 800, .RGBA, .src 0⟩ 512 2
  exact ⟨h.1, (h.2.1 rfl).2 (fun _ _ _ => ⟨1, 1, 1, 0⟩) 0 0⟩

/-- C6: `update_contents_json` overwrites `<output_dir>/Contents.json`
(whatever was there before) with the manifest whose `images` list has
exactly the 10 generated bitmap filenames in catalog order, each entry
with idiom `"mac"`, the spec's scale rendered `"1x"`/`"2x"`, size
`"<n>x<n>"`, and info `{author: "xcode", version: 1}`. -/
theorem update_contents_json_correct (fs : Fs) (output_dir : String) :
    fsGet (update_contents_json fs output_dir) (pjoin output_dir "Contents.json")
      = some (.file (.jsonManifest contentsRecord)) ∧
    contentsRecord.images.length = 10 ∧
    contentsRecord.images.map (fun e => e.filename) = ICON_SIZES.map (fun s => s.filename) ∧
    contentsRecord.images =
      ICON_SIZES.map (fun s =>
        ⟨s.filename, "mac", (if s.scale = 2 then "2x" else "1x"),
         toString s.size ++ "x" ++ toString s.size⟩) ∧
    contentsRecord.info = ⟨"xcode", 1⟩ := by
  refine ⟨?_, by decide, by decide, ?_, by decide⟩
  · simp [update_contents_json, fsSet, fsGet]
  · decide

/-- C7: the packager converts every exceptional condition into a plain
failure result (nothing propagates): a staging exception yields `false`;
an unavailable tool yields `false`; with a working filesystem, missing
bitmaps are silently skipped (nothing is staged for them and no error is
raised — presence is never required); on exit code 0 the staging
directory is removed and success is reported; on nonzero exit the staging
directory is left in place and failure is reported together with the
captured stderr text. -/
theorem generate_icns_error_handling (env : Env) (fs : Fs)
    (input_dir output_path : String) :
    (∀ e, (stageIcons env.stagingFault input_dir
            (strReplace output_path ".icns" ".iconset")
            (fsSet fs (strReplace output_path ".icns" ".iconset") .dir)
            icon_mapping).2 = some e →
       (generate_icns env fs input_dir output_path).2.1 = false) ∧
    (env.iconutil = .unavailable →
       (generate_icns env fs input_dir output_path).2.1 = false) ∧
    (env.stagingFault = false →
     (∀ pr ∈ icon_mapping,
        fileOrMissing (fsSet fs (strReplace output_path ".icns" ".iconset") .dir)
          (pjoin input_dir pr.1)) →
     ∀ code stderr container, env.iconutil = .ran code stderr container →
       (code = 0 →
          (generate_icns env fs input_dir output_path).2.1 = true ∧
          fsGet (generate_icns env fs input_dir output_path).1
            (strReplace output_path ".icns" ".iconset") = none ∧
          (generate_icns env fs input_dir output_path).2.2
            = ["Created: " ++ output_path]) ∧
       (code ≠ 0 →
          (generate_icns env fs input_dir output_path).2.1 = false ∧
          fsGet (generate_icns env fs input_dir output_path).1
            (strReplace output_path ".icns" ".iconset") = some .dir ∧
          (generate_icns env fs input_dir output_path).2.2
            = ["Error creating .icns: " ++ stderr])) ∧
    (∀ pr ∈ icon_mapping,
      (∀ pr' ∈ icon_mapping,
        isUnder (strReplace output_path ".icns" ".iconset")
          (pjoin input_dir pr'.1) = false) →
      (∀ pr' ∈ icon_mapping, pr'.2 = pr.2 →
        fsGet (fsSet fs (strReplace output_path ".icns" ".iconset") .dir)
          (pjoin input_dir pr'.1) = none) →
      fsGet (stageIcons env.stagingFault input_dir
              (strReplace output_path ".icns" ".iconset")
              (fsSet fs (strReplace output_path ".icns" ".iconset") .dir)
              icon_mapping).1
          (pjoin (strReplace output_path ".icns" ".iconset") pr.2)
        = fsGet (fsSet fs (strReplace output_path ".icns" ".iconset") .dir)
            (pjoin (strReplace output_path ".icns" ".iconset") pr.2)) := by
  refine ⟨?_, ?_, ?_, ?_⟩
  · intro e he
    simp only [generate_icns]
    rcases hst : stageIcons env.stagingFault input_dir
        (strReplace output_path ".icns" ".iconset")
        (fsSet fs (strReplace output_path ".icns" ".iconset") .dir)
        icon_mapping with ⟨fs2, oe⟩
    rw [hst] at he
    simp only at he
    subst he
    rfl
  · intro hun
    simp only [generate_icns]
    rcases hst : stageIcons env.stagingFault input_dir
        (strReplace output_path ".icns" ".iconset")
        (fsSet fs (strReplace output_path ".icns" ".iconset") .dir)
        icon_mapping with ⟨fs2, oe⟩
    rcases oe with _ | e
    · rw [hun]
    · rfl
  · intro hfault hsrc code stderr container hic
    have hnone : (stageIcons env.stagingFault input_dir
        (strReplace output_path ".icns" ".iconset")
        (fsSet fs (strReplace output_path ".icns" ".iconset") .dir)
        icon_mapping).2 = none := by
      rw [hfault]
      exact stageIcons_no_fault _ _ icon_mapping _ hsrc
    rcases hst : stageIcons env.stagingFault input_dir
        (strReplace output_path ".icns" ".iconset")
        (fsSet fs (strReplace output_path ".icns" ".iconset") .dir)
        icon_mapping with ⟨fs2, oe⟩
    rw [hst] at hnone
    simp only at hnone
    subst hnone
    constructor
    · intro hcode
      subst hcode
      refine ⟨?_, ?_, ?_⟩
      · simp only [generate_icns, hst, hic, if_pos rfl]
        rw [if_pos trivial]
      · simp only [generate_icns, hst, hic, if_pos rfl]
        rw [if_pos trivial]
        exact fsGet_rmtree_self _ _
      · simp only [generate_icns, hst, hic, if_pos rfl]
        rw [if_pos trivial]
    · intro hcode
      refine ⟨?_, ?_, ?_⟩
      · simp only [generate_icns, hst, hic, if_neg hcode]
      · simp only [generate_icns, hst, hic, if_neg hcode]
        have hfr := stageIcons_frame env.stagingFault input_dir
          (strReplace output_path ".icns" ".iconset") icon_mapping
          (fsSet fs (strReplace output_path ".icns" ".iconset") .dir)
          (strReplace output_path ".icns" ".iconset")
          (fun d => (pjoin_ne_base _ d).symm)
        rw [hst] at hfr
        simp only at hfr
        rw [hfr, fsGet_set_same]
      · simp only [generate_icns, hst, hic, if_neg hcode]
  · intro pr hpr hsep hmiss
    exact stageIcons_skip env.stagingFault input_dir
      (strReplace output_path ".icns" ".iconset") pr.2 icon_mapping _
      (fun pr' hpr' => hsep pr' hpr') hmiss

/-- Witness for `generate_icns_error_handling`: concrete run where the
tool exits 1 with stderr `"boom"`. -/
theorem generate_icns_error_handling_witness :
    (generate_icns ⟨.ran 1 "boom" 0, false⟩ [] "/in" "/out/AppIcon.icns").2.1 = false ∧
    fsGet (generate_icns ⟨.ran 1 "boom" 0, false⟩ [] "/in" "/out/AppIcon.icns").1
      (strReplace "/out/AppIcon.icns" ".icns" ".iconset") = some .dir ∧
    (generate_icns ⟨.ran 1 "boom" 0, false⟩ [] "/in" "/out/AppIcon.icns").2.2
      = ["Error creating .icns: boom"] :=
  ((generate_icns_error_handling ⟨.ran 1 "boom" 0, false⟩ [] "/in"
      "/out/AppIcon.icns").2.2.1 rfl
    (by
      simp only [fileOrMissing_iff]
      decide)
    1 "boom" 0 rfl).2 (by decide)

/-- C8: when the source image is absent, `main` returns exit code 1 and
the filesystem is exactly as before: no output directory, bitmap,
manifest or container has been created. -/
theorem main_missing_source (env : Env) (fs : Fs) (root : String)
    (h : fsGet fs (sourcePath root) = none) :
    main env fs root = (fs, .exited 1) := by
  rw [main, h]

/-- Witness for `main_missing_source` on the empty filesystem. -/
theorem main_missing_source_witness :
    fsGet ([] : Fs) (sourcePath "") = none ∧
    main ⟨.unavailable, false⟩ ([] : Fs) "" = ([], .exited 1) :=
  ⟨rfl, main_missing_source ⟨.unavailable, false⟩ [] "" rfl⟩

/-- C9: re-running `main` on the unchanged source yields byte-identical
bitmap and manifest files: the first run writes the deterministic
renders, and a second run (under any environment) overwrites each of
them with exactly the same contents. -/
theorem main_idempotent (env env2 : Env) (fs : Fs) (root : String) (img0 : Img)
    (hnd : ∀ c ∈ root.data, c ≠ '.')
    (hsrc : fsGet fs (sourcePath root) = some (.file (.png img0))) :
    (∀ spec ∈ ICON_SIZES,
      fsGet (main env fs root).1 (bitmapPath root spec)
        = some (.file (.png (renderIcon (sourceSquare img0) spec.size spec.scale))) ∧
      fsGet (main env2 (main env fs root).1 root).1 (bitmapPath root spec)
        = fsGet (main env fs root).1 (bitmapPath root spec)) ∧
    (fsGet (main env fs root).1 (contentsPath root)
      = some (.file (.jsonManifest contentsRecord)) ∧
     fsGet (main env2 (main env fs root).1 root).1 (contentsPath root)
      = fsGet (main env fs root).1 (contentsPath root)) := by
  have h1 := main_outputs env fs root img0 hnd hsrc
  have h2 := main_outputs env2 (main env fs root).1 root img0 hnd h1.1
  exact ⟨fun spec hs => ⟨h1.2.1 spec hs, by rw [h2.2.1 spec hs, h1.2.1 spec hs]⟩,
    h1.2.2, by rw [h2.2.2, h1.2.2]⟩

/-- Witness for `main_idempotent`: two consecutive concrete runs (the
second with a different environment) leave the manifest unchanged. -/
theorem main_idempotent_witness :
    (∀ c ∈ ("" : String).data, c ≠ '.') ∧
    fsGet [(sourcePath "", Entry.file (.png ⟨800, 800, .RGBA, .src 0⟩))]
        (sourcePath "") = some (.file (.png ⟨800, 800, .RGBA, .src 0⟩)) ∧
    (fsGet (main ⟨.ran 0 "" 7, false⟩
        [(sourcePath "", Entry.file (.png ⟨800, 800, .RGBA, .src 0⟩))] "").1
        (contentsPath "") = some (.file (.jsonManifest contentsRecord)) ∧
     fsGet (main ⟨.unavailable, false⟩
        (main ⟨.ran 0 "" 7, false⟩
          [(sourcePath "", Entry.file (.png ⟨800, 800, .RGBA, .src 0⟩))] "").1 "").1
        (contentsPath "")
      = fsGet (main ⟨.ran 0 "" 7, false⟩
          [(sourcePath "", Entry.file (.png ⟨800, 800, .RGBA, .src 0⟩))] "").1
          (contentsPath "")) :=
  ⟨by decide, by decide,
    (main_idempotent ⟨.ran 0 "" 7, false⟩ ⟨.unavailable, false⟩
      [(sourcePath "", Entry.file (.png ⟨800, 800, .RGBA, .src 0⟩))] ""
      ⟨800, 800, .RGBA, .src 0⟩ (by decide) (by decide)).2⟩

/-- C10: `main` converts the loaded image to RGBA before cropping, the
crop preserves that mode, so the image handed to the renderer is always
RGBA; every bitmap `main` writes is the composite-over-black branch's
output, and the direct RGB-coercion branch never produces a pixel term. -/
theorem main_rgba_composite (env : Env) (fs : Fs) (root : String) (img0 : Img)
    (hnd : ∀ c ∈ root.data, c ≠ '.')
    (hsrc : fsGet fs (sourcePath root) = some (.file (.png img0))) :
    (img0.convert .RGBA).mode = .RGBA ∧
    (sourceSquare img0).mode = .RGBA ∧
    (∀ size scale : Nat,
      renderIcon (sourceSquare img0) size scale =
        { width := size * scale, height := size * scale, mode := .RGB,
          px := .compositeOverBlack (.resample .lanczos (sourceSquare img0).px
            (size * scale) (size * scale)) }) ∧
    (∀ (size scale : Nat) (p : PixExpr),
      (renderIcon (sourceSquare img0) size scale).px ≠ .convertTo .RGB p) ∧
    (∀ spec ∈ ICON_SIZES,
      fsGet (main env fs root).1 (bitmapPath root spec)
        = some (.file (.png
            { width := spec.size * spec.scale, height := spec.size * spec.scale,
              mode := .RGB,
              px := .compositeOverBlack (.resample .lanczos (sourceSquare img0).px
                (spec.size * spec.scale) (spec.size * spec.scale)) }))) := by
  refine ⟨convert_mode img0 .RGBA, sourceSquare_mode img0, ?_, ?_, ?_⟩
  · intro size scale
    exact renderIcon_of_RGBA _ _ _ (sourceSquare_mode img0)
  · intro size scale p
    rw [renderIcon_of_RGBA _ _ _ (sourceSquare_mode img0)]
    simp
  · intro spec hspec
    rw [(main_outputs env fs root img0 hnd hsrc).2.1 spec hspec,
      renderIcon_of_RGBA _ _ _ (sourceSquare_mode img0)]

/-- Witness for `main_rgba_composite` on a concrete transparent source. -/
theorem main_rgba_composite_witness :
    (sourceSquare ⟨1000, 600, .other "P", .src 3⟩).mode = .RGBA ∧
    renderIcon (sourceSquare ⟨1000, 600, .other "P", .src 3⟩) 16 2 =
      { width := 32, height := 32, mode := .RGB,
        px := .compositeOverBlack (.resample .lanczos
          (sourceSquare ⟨1000, 600, .other "P", .src 3⟩).px 32 32) } := by
  have h := main_rgba_composite ⟨.unavailable, false⟩
    [(sourcePath "", Entry.file (.png ⟨1000, 600, .other "P", .src 3⟩))] ""
    ⟨1000, 600, .other "P", .src 3⟩ (by decide) (by decide)
  exact ⟨h.2.1, h.2.2.1 16 2⟩

/-- C1 counterexample: source present, packager unavailable, app-bundle
resource directory present, no pre-existing container: the unguarded
`shutil.copy2` of line 181 raises `FileNotFoundError`, which nothing
catches — the process terminates with a traceback (status 1), not exit
code 0, even though the bitmaps and manifest were written. -/
theorem main_exit_counterexample :
    fsGet [(sourcePath "", Entry.file (.png ⟨800, 800, .RGBA, .src 0⟩)),
           (icnsDir "", Entry.dir)] (sourcePath "")
      = some (.file (.png ⟨800, 800, .RGBA, .src 0⟩)) ∧
    (main ⟨.unavailable, false⟩
        [(sourcePath "", Entry.file (.png ⟨800, 800, .RGBA, .src 0⟩)),
         (icnsDir "", Entry.dir)] "").2
      = .raised (.fileNotFound (brandingIcns "")) ∧
    (main ⟨.unavailable, false⟩
        [(sourcePath "", Entry.file (.png ⟨800, 800, .RGBA, .src 0⟩)),
         (icnsDir "", Entry.dir)] "").2 ≠ .exited 0 := by
  decide

/-- C1 amended: with the source present (and a dot-free install root),
the process exits 0 whenever packaging succeeds, or the app-bundle
resource directory is absent, or a container file already sits at the
branding path; only the remaining case (packaging failed to produce a
container and the app-bundle directory exists) escapes with an uncaught
exception. -/
theorem main_exit_zero_amended (env : Env) (fs : Fs) (root : String) (img0 : Img)
    (hnd : ∀ c ∈ root.data, c ≠ '.')
    (hsrc : fsGet fs (sourcePath root) = some (.file (.png img0)))
    (hok : (env.stagingFault = false ∧ ∃ s c, env.iconutil = .ran 0 s c)
           ∨ fsGet fs (icnsDir root) = none
           ∨ ∃ d, fsGet fs (brandingIcns root) = some (.file d)) :
    (main env fs root).2 = .exited 0 := by
  have hmain : main env fs root = distribute (pipelineFs env fs root img0) root := by
    rw [main, hsrc]
  rw [hmain]
  rcases hres : (generate_icns env (pipelinePre fs root img0) (outputDir root)
      (brandingIcns root)).2.1 with _ | _
  · have hbr := (pipeline_branding env fs root img0 hnd).2 hres
    rcases hok with ⟨hf, s, c, hic⟩ | hnone | ⟨d, hd⟩
    · rw [pipeline_pack_true env fs root img0 hnd hf s c hic] at hres
      exact absurd hres (by simp)
    · have hskip : fsExists (pipelineFs env fs root img0) (icnsDir root) = false := by
        rw [fsExists, pipeline_icnsDir_frame env fs root img0 hnd, hnone]
        rfl
      rw [distribute_skip _ _ hskip]
    · have hb : fsGet (pipelineFs env fs root img0) (brandingIcns root)
          = some (.file d) := by
        rw [hbr, hd]
      exact (distribute_copy _ root d hb).1
  · rcases (pipeline_branding env fs root img0 hnd).1 hres with ⟨c, hc⟩
    exact (distribute_copy _ root (.icns c) hc).1

/-- Witness for `main_exit_zero_amended`: concrete run with no
app-bundle directory and a failing packager still exits 0. -/
theorem main_exit_zero_amended_witness :
    (∀ c ∈ ("" : String).data, c ≠ '.') ∧
    fsGet [(sourcePath "", Entry.file (.png ⟨800, 800, .RGBA, .src 0⟩))]
        (sourcePath "") = some (.file (.png ⟨800, 800, .RGBA, .src 0⟩)) ∧
    (main ⟨.unavailable, false⟩
        [(sourcePath "", Entry.file (.png ⟨800, 800, .RGBA, .src 0⟩))] "").2
      = .exited 0 :=
  ⟨by decide, by decide,
    main_exit_zero_amended ⟨.unavailable, false⟩
      [(sourcePath "", Entry.file (.png ⟨800, 800, .RGBA, .src 0⟩))] ""
      ⟨800, 800, .RGBA, .src 0⟩ (by decide) (by decide)
      (Or.inr (Or.inl (by decide)))⟩

/-- C2 counterexample: the packager fails (tool unavailable — its
boolean result, reproduced in the first conjunct, is `false` and is
discarded by `main`), yet because the app-bundle resource directory
exists and a stale container sits at the branding path, the distribution
copy still proceeds and copies the stale container into the app bundle. -/
theorem copier_counterexample :
    (generate_icns ⟨.unavailable, false⟩
        (pipelinePre [(sourcePath "", Entry.file (.png ⟨800, 800, .RGBA, .src 0⟩)),
                      (icnsDir "", Entry.dir),
                      (brandingIcns "", Entry.file (.raw "stale"))] ""
          ⟨800, 800, .RGBA, .src 0⟩)
        (outputDir "") (brandingIcns "")).2.1 = false ∧
    (main ⟨.unavailable, false⟩
        [(sourcePath "", Entry.file (.png ⟨800, 800, .RGBA, .src 0⟩)),
         (icnsDir "", Entry.dir),
         (brandingIcns "", Entry.file (.raw "stale"))] "").2 = .exited 0 ∧
    fsGet (main ⟨.unavailable, false⟩
        [(sourcePath "", Entry.file (.png ⟨800, 800, .RGBA, .src 0⟩)),
         (icnsDir "", Entry.dir),
         (brandingIcns "", Entry.file (.raw "stale"))] "").1 (icnsPath "")
      = some (.file (.raw "stale")) := by
  decide

/-- C2 amended: the app-bundle copy is attempted whenever the resource
directory exists, regardless of the packaging outcome (it copies
whatever file sits at the branding path, or raises if none does); when
the directory does not exist, the copy is silently skipped — exit code 0
and the app-bundle container path untouched. -/
theorem copier_amended (env : Env) (fs : Fs) (root : String) (img0 : Img)
    (hnd : ∀ c ∈ root.data, c ≠ '.')
    (hsrc : fsGet fs (sourcePath root) = some (.file (.png img0))) :
    (fsGet fs (icnsDir root) = none →
      (main env fs root).2 = .exited 0 ∧
      fsGet (main env fs root).1 (icnsPath root) = fsGet fs (icnsPath root)) ∧
    (∀ e, fsGet fs (icnsDir root) = some e →
      (∃ d, fsGet (main env fs root).1 (icnsPath root) = some (.file d) ∧
            (main env fs root).2 = .exited 0)
      ∨ ∃ e', (main env fs root).2 = .raised e') := by
  have hmain : main env fs root = distribute (pipelineFs env fs root img0) root := by
    rw [main, hsrc]
  constructor
  · intro hnone
    have hskip : fsExists (pipelineFs env fs root img0) (icnsDir root) = false := by
      rw [fsExists, pipeline_icnsDir_frame env fs root img0 hnd, hnone]
      rfl
    rw [hmain, distribute_skip _ _ hskip]
    exact ⟨rfl, pipeline_icnsPath_frame env fs root img0 hnd⟩
  · intro e he
    have hex : fsExists (pipelineFs env fs root img0) (icnsDir root) = true := by
      rw [fsExists, pipeline_icnsDir_frame env fs root img0 hnd, he]
      rfl
    rw [hmain, distribute, if_pos hex]
    rcases hb : fsGet (pipelineFs env fs root img0) (brandingIcns root) with _ | be
    · right
      rw [show copy2 (pipelineFs env fs root img0) (brandingIcns root) (icnsPath root)
            = .error (.fileNotFound (brandingIcns root)) from by rw [copy2, hb]]
      exact ⟨_, rfl⟩
    · rcases be with d | _
      · left
        rw [show copy2 (pipelineFs env fs root img0) (brandingIcns root) (icnsPath root)
              = .ok (fsSet (pipelineFs env fs root img0) (icnsPath root) (.file d))
            from by rw [copy2, hb]]
        exact ⟨d, fsGet_set_same _ _ _, rfl⟩
      · right
        rw [show copy2 (pipelineFs env fs root img0) (brandingIcns root) (icnsPath root)
              = .error (.osError "is a directory") from by rw [copy2, hb]]
        exact ⟨_, rfl⟩

/-- Witness for `copier_amended`: with no app-bundle directory, the copy
is skipped and the app-bundle container path stays empty. -/
theorem copier_amended_witness :
    (∀ c ∈ ("" : String).data, c ≠ '.') ∧
    fsGet [(sourcePath "", Entry.file (.png ⟨800, 800, .RGBA, .src 0⟩))]
        (sourcePath "") = some (.file (.png ⟨800, 800, .RGBA, .src 0⟩)) ∧
    fsGet [(sourcePath "", Entry.file (.png ⟨800, 800, .RGBA, .src 0⟩))]
        (icnsDir "") = none ∧
    ((main ⟨.ran 0 "" 7, false⟩
        [(sourcePath "", Entry.file (.png ⟨800, 800, .RGBA, .src 0⟩))] "").2
        = .exited 0 ∧
     fsGet (main ⟨.ran 0 "" 7, false⟩
        [(sourcePath "", Entry.file (.png ⟨800, 800, .RGBA, .src 0⟩))] "").1
        (icnsPath "")
      = fsGet [(sourcePath "", Entry.file (.png ⟨800, 800, .RGBA, .src 0⟩))]
          (icnsPath "")) :=
  ⟨by decide, by decide, by decide,
    (copier_amended ⟨.ran 0 "" 7, false⟩
      [(sourcePath "", Entry.file (.png ⟨800, 800, .RGBA, .src 0⟩))] ""
      ⟨800, 800, .RGBA, .src 0⟩ (by decide) (by decide)).1 (by decide)⟩

end OfflineCinema
